import Mathlib

/-!
Shallow embedding of `src/main.py` of the magnet-framer repository.

The program is a batch image-framing pipeline built on PIL:
crop, scale, pad, composite a decorative frame, optionally rotate, save.

Modelling conventions:
* A PIL image is a structure with integer width/height, a total pixel
  function `Nat → Nat → RGBA`, and a Boolean `alphaChannel` recording
  whether the image is in RGBA mode (`true`) or RGB mode (`false`,
  in which case the alpha component of every pixel is conventionally 255).
* Python floats in the scaling computation are modelled as exact
  rationals; Python `int(...)` truncation is `ratTrunc`.
* Python `//` (floor division) on ints is `Int.fdiv`.
* The module-level mutable `current_config` dictionary is threaded as an
  explicit argument; the argparse result `config` and the JSON dictionary
  `json_config` become explicit structures.
* `exit(1)` is modelled with `Except Nat`, the error value being the
  process exit code; the Python `for` loop over the input directory is a
  recursion over a list of (filename, decoded image) pairs, and an
  `Except.error` propagating out of it models process termination with no
  further files processed.
* Disk writes are modelled by returning the list of (path, image) pairs
  that `save_image` would persist.
* PIL `resize` resampled pixel content is modelled as nearest-neighbour
  sampling; no claim depends on resampled pixel values, only on the
  computed dimensions.
-/

namespace MagnetFramer

/-- One RGBA pixel; channel values are nominally in 0..255. -/
structure RGBA where
  r : Nat
  g : Nat
  b : Nat
  a : Nat
deriving DecidableEq, Repr

/-- A decoded raster image in the style of a PIL `Image`: dimensions, a
total pixel-lookup function, and whether the image carries an alpha
channel (PIL mode RGBA vs RGB). -/
structure Image where
  width : Nat
  height : Nat
  pixel : Nat → Nat → RGBA
  alphaChannel : Bool

/-- A pixel has all channels within the 8-bit range. -/
def RGBA.Valid (p : RGBA) : Prop :=
  p.r ≤ 255 ∧ p.g ≤ 255 ∧ p.b ≤ 255 ∧ p.a ≤ 255

/-- Every pixel of the image is within the 8-bit range. -/
def Image.Valid (image : Image) : Prop :=
  ∀ x y, (image.pixel x y).Valid

/-- PIL `convert('RGBA')` as used on freshly opened images: the result is
in RGBA mode. -/
def convertRGBA (image : Image) : Image :=
  { image with alphaChannel := true }

/-- PIL `convert('RGB')`: the alpha channel is dropped; the result is an
opaque 3-channel image (alpha conventionally 255). -/
def convertRGB (image : Image) : Image :=
  { width := image.width, height := image.height,
    pixel := fun x y =>
      ⟨(image.pixel x y).r, (image.pixel x y).g, (image.pixel x y).b, 255⟩,
    alphaChannel := false }

/-- The `Crop` class of `main.py`: four crop margins, one per edge
(non-negative pixel counts, per the data model). -/
structure Crop where
  left : Nat
  top : Nat
  right : Nat
  bottom : Nat
deriving DecidableEq, Repr

/-- The per-orientation `current_config` dictionary built by
`set_current_config`. -/
structure CurrentConfig where
  framePath : String
  crop : Crop
  scaleFactor : ℚ

/-- The JSON configuration dictionary `json_config` (the fields the
pipeline reads). -/
structure JsonConfig where
  landFramePath : String
  landCrop : Crop
  landScaleFactor : ℚ
  portFramePath : String
  portCrop : Crop
  portScaleFactor : ℚ
  rotateToLandscape : Bool

/-- The argparse result `config` (the fields the pipeline reads). -/
structure Config where
  input : String
  output : String
  debug : Bool

/-- `image_orientation` of `main.py`: compare width to height. -/
def image_orientation (image : Image) : String :=
  if image.width > image.height then "landscape"
  else if image.width < image.height then "portrait"
  else "square"

/-- PIL `Image.crop` with an integer box `(left, upper, right, lower)`:
the result has size `(right - left, lower - upper)` (clamped at zero) and
pixel `(x, y)` taken from source coordinate `(left + x, upper + y)`,
out-of-range source coordinates reading as transparent black. -/
def pilCrop (image : Image) (left upper right lower : ℤ) : Image :=
  { width := (right - left).toNat,
    height := (lower - upper).toNat,
    pixel := fun x y =>
      let sx : ℤ := left + x
      let sy : ℤ := upper + y
      if 0 ≤ sx ∧ sx < (image.width : ℤ) ∧ 0 ≤ sy ∧ sy < (image.height : ℤ) then
        image.pixel sx.toNat sy.toNat
      else ⟨0, 0, 0, 0⟩,
    alphaChannel := image.alphaChannel }

/-- `crop_image` of `main.py`: crop with box
`(crop.left, crop.top, width - crop.right, height - crop.bottom)` from the
current configuration. -/
def crop_image (current_config : CurrentConfig) (image : Image) : Image :=
  let crop := current_config.crop
  pilCrop image (crop.left : ℤ) (crop.top : ℤ)
    ((image.width : ℤ) - crop.right) ((image.height : ℤ) - crop.bottom)

/-- Python `int(...)` applied to a rational: truncation toward zero. -/
def ratTrunc (q : ℚ) : ℤ :=
  if q < 0 then -Int.floor (-q) else Int.floor q

/-- `scale_image` of `main.py`: multiply the configured scale factor by
`min(frame.width / image.width, frame.height / image.height)` and resize
to the truncated scaled dimensions. -/
def scale_image (current_config : CurrentConfig) (image frame : Image) : Image :=
  let scale_factor : ℚ := current_config.scaleFactor *
    min ((frame.width : ℚ) / (image.width : ℚ))
        ((frame.height : ℚ) / (image.height : ℚ))
  let new_width : Nat := (ratTrunc ((image.width : ℚ) * scale_factor)).toNat
  let new_height : Nat := (ratTrunc ((image.height : ℚ) * scale_factor)).toNat
  { width := new_width,
    height := new_height,
    pixel := fun x y =>
      image.pixel (x * image.width / new_width) (y * image.height / new_height),
    alphaChannel := image.alphaChannel }

/-- PIL fill colour named red, as an opaque RGBA value. -/
def fillRed : RGBA := ⟨255, 0, 0, 255⟩

/-- PIL fill colour named white, as an opaque RGBA value. -/
def fillWhite : RGBA := ⟨255, 255, 255, 255⟩

/-- `ImageOps.expand(image, (left, top, right, bottom), fill)`: a new image
of size `(left + width + right, top + height + bottom)` with the original
pasted at offset `(left, top)` and the border filled with `fill`. -/
def expand (image : Image) (left top right bottom : Nat) (fill : RGBA) : Image :=
  { width := left + image.width + right,
    height := top + image.height + bottom,
    pixel := fun x y =>
      if left ≤ x ∧ x < left + image.width ∧ top ≤ y ∧ y < top + image.height then
        image.pixel (x - left) (y - top)
      else fill,
    alphaChannel := image.alphaChannel }

/-- `pad_image` of `main.py`: centre the image on a frame-sized canvas.
Left/top paddings use Python floor division; right/bottom absorb the
rounding remainder. The fill is red in debug mode, white otherwise.
The `Int.toNat` coercions at the `expand` call record that negative
paddings (image larger than the frame) are out of contract. -/
def pad_image (config : Config) (image frame : Image) : Image :=
  let horizontal_correction : ℤ := 0
  let vertical_correction : ℤ := 0
  let left_padding : ℤ :=
    Int.fdiv ((frame.width : ℤ) - (image.width : ℤ)) 2 + horizontal_correction
  let top_padding : ℤ :=
    Int.fdiv ((frame.height : ℤ) - (image.height : ℤ)) 2 + vertical_correction
  let right_padding : ℤ := (frame.width : ℤ) - (image.width : ℤ) - left_padding
  let bottom_padding : ℤ := (frame.height : ℤ) - (image.height : ℤ) - top_padding
  expand image left_padding.toNat top_padding.toNat right_padding.toNat
    bottom_padding.toNat (if config.debug then fillRed else fillWhite)

/-- PIL fixed-point helper `MULDIV255`: exact multiply-by-`y/255` with
rounding, computed as `t = x*y + 128; ((t >> 8) + t) >> 8`. -/
def muldiv255 (x y : Nat) : Nat :=
  let t := x * y + 128
  (t / 256 + t) / 256

/-- PIL per-channel alpha blend under a mask value `mask` in 0..255:
`base` weighted by `255 - mask` plus `overlay` weighted by `mask`. -/
def blendChannel (base overlay mask : Nat) : Nat :=
  muldiv255 base (255 - mask) + muldiv255 overlay mask

/-- Blend two RGBA pixels, every channel under the same mask value. -/
def blendRGBA (base overlay : RGBA) (mask : Nat) : RGBA :=
  ⟨blendChannel base.r overlay.r mask,
   blendChannel base.g overlay.g mask,
   blendChannel base.b overlay.b mask,
   blendChannel base.a overlay.a mask⟩

/-- PIL `base.paste(overlay, (x, y), mask)` where the mask is an RGBA
image (its alpha channel is the blend mask): within the pasted rectangle
each pixel is blended; outside it the base is unchanged. -/
def paste (base overlay mask : Image) (x y : ℤ) : Image :=
  { width := base.width,
    height := base.height,
    pixel := fun px py =>
      let ox : ℤ := (px : ℤ) - x
      let oy : ℤ := (py : ℤ) - y
      if 0 ≤ ox ∧ ox < (overlay.width : ℤ) ∧ 0 ≤ oy ∧ oy < (overlay.height : ℤ) ∧
          px < base.width ∧ py < base.height then
        blendRGBA (base.pixel px py) (overlay.pixel ox.toNat oy.toNat)
          ((mask.pixel ox.toNat oy.toNat).a)
      else base.pixel px py,
    alphaChannel := base.alphaChannel }

/-- `frame_image` of `main.py`: paste the frame (using its own alpha as
the mask) onto a copy of the padded canvas at the centring offset, then
flatten with `convert('RGB')`. -/
def frame_image (image frame : Image) : Image :=
  let x : ℤ := Int.fdiv ((frame.width : ℤ) - (image.width : ℤ)) 2
  let y : ℤ := Int.fdiv ((frame.height : ℤ) - (image.height : ℤ)) 2
  let framed_image := paste image frame frame x y
  convertRGB framed_image

/-- `rotate_image` of `main.py`: `image.rotate(90, expand=True)`, a 90°
counter-clockwise rotation with the canvas expanded to the swapped
dimensions so nothing is cropped. -/
def rotate_image (image : Image) : Image :=
  { width := image.height,
    height := image.width,
    pixel := fun x y => image.pixel (image.width - 1 - y) x,
    alphaChannel := image.alphaChannel }

/-- Python `str.endswith`, on the character lists of the strings. -/
def endsWithStr (s sfx : String) : Bool :=
  sfx.data.isSuffixOf s.data

/-- `os.path.splitext` restricted to plain basenames: split at the last
dot, unless every character before that dot is itself a dot (leading-dot
names have no extension). -/
def splitext (s : String) : String × String :=
  let cs := s.data
  let dotIdxs := (List.range cs.length).filter (fun i => cs.getD i ' ' = '.')
  match dotIdxs.getLast? with
  | none => (s, "")
  | some p =>
    if (cs.take p).any (fun c => c ≠ '.') then
      (⟨cs.take p⟩, ⟨cs.drop p⟩)
    else (s, "")

/-- `os.path.join` for a directory and a relative basename. -/
def joinPath (dir name : String) : String := dir ++ "/" ++ name

/-- `output_filename_with_postfix` of `main.py`: split the filename into
stem and extension and rebuild it, under the output directory, with the
given text inserted between them. -/
def output_filename_with_suffix (config : Config) (filename suffix : String) : String :=
  let splitted_filename := splitext filename
  joinPath config.output (splitted_filename.1 ++ suffix ++ splitted_filename.2)

/-- `save_image` of `main.py`: convert to RGB and save. Modelled as the
(path, image) pair that is written to disk. -/
def save_image (config : Config) (image : Image) (filename suffix : String) :
    String × Image :=
  (output_filename_with_suffix config filename suffix, convertRGB image)

/-- `set_current_config` of `main.py`: select the landscape or portrait
parameter set; `exit(1)` on a square image is the `Except.error 1` case,
the error value being the process exit code. -/
def set_current_config (json_config : JsonConfig) (image : Image) :
    Except Nat CurrentConfig :=
  if image_orientation image = "landscape" then
    Except.ok
      { framePath := json_config.landFramePath,
        crop := json_config.landCrop,
        scaleFactor := json_config.landScaleFactor }
  else if image_orientation image = "portrait" then
    Except.ok
      { framePath := json_config.portFramePath,
        crop := json_config.portCrop,
        scaleFactor := json_config.portScaleFactor }
  else
    Except.error 1

/-- The body of the `for` loop of `process` in `main.py`, for one input
file: decode to RGBA, select the orientation configuration (aborting on a
square image), run crop, scale, pad, composite, conditionally rotate, and
save. `loadFrame` models `Image.open` on a frame path. The returned list
holds the (path, image) pairs written to disk, in write order: in debug
mode the `itertools.count` counter is consumed once per snapshot save and
once for the final save; outside debug mode it is never consumed. -/
def process_file (json_config : JsonConfig) (config : Config)
    (loadFrame : String → Image) (filename : String) (img : Image) :
    Except Nat (List (String × Image)) :=
  let counter0 : Nat := 0
  let original_image := convertRGBA img
  match set_current_config json_config original_image with
  | Except.error e => Except.error e
  | Except.ok current_config =>
    let (saves0, counter1) :=
      if config.debug then
        ([save_image config original_image filename
            ("_" ++ toString counter0 ++ "_original")], counter0 + 1)
      else ([], counter0)
    let frame := convertRGBA (loadFrame current_config.framePath)
    let cropped_image := crop_image current_config original_image
    let (saves1, counter2) :=
      if config.debug then
        (saves0 ++ [save_image config cropped_image filename
            ("_" ++ toString counter1 ++ "_cropped")], counter1 + 1)
      else (saves0, counter1)
    let scaled_image := scale_image current_config cropped_image frame
    let (saves2, counter3) :=
      if config.debug then
        (saves1 ++ [save_image config scaled_image filename
            ("_" ++ toString counter2 ++ "_scaled")], counter2 + 1)
      else (saves1, counter2)
    let padded_image := pad_image config scaled_image frame
    let (saves3, counter4) :=
      if config.debug then
        (saves2 ++ [save_image config padded_image filename
            ("_" ++ toString counter3 ++ "_padded")], counter3 + 1)
      else (saves2, counter3)
    let framed_image := frame_image padded_image frame
    let final_image :=
      if json_config.rotateToLandscape && (image_orientation original_image == "portrait")
      then rotate_image framed_image
      else framed_image
    Except.ok (saves3 ++ [save_image config final_image filename
      (if config.debug then "_" ++ toString counter4 ++ "_framed" else "_framed")])

/-- `process` of `main.py`: iterate over the directory listing (modelled
as a list of filename/decoded-image pairs), silently skipping entries not
ending in `.jpg`; a propagated `Except.error` models `exit(1)` killing the
whole run, so no later file is processed. -/
def process (json_config : JsonConfig) (config : Config)
    (loadFrame : String → Image) :
    List (String × Image) → Except Nat (List (String × Image))
  | [] => Except.ok []
  | (filename, img) :: rest =>
    if endsWithStr filename ".jpg" then
      match process_file json_config config loadFrame filename img with
      | Except.error e => Except.error e
      | Except.ok saves =>
        match process json_config config loadFrame rest with
        | Except.error e => Except.error e
        | Except.ok more => Except.ok (saves ++ more)
    else process json_config config loadFrame rest

/-! ### Helper lemmas -/

/-- Floor division of a natural-number cast by two agrees with natural
division. -/
lemma fdiv_two_natCast (k : Nat) : Int.fdiv (k : ℤ) 2 = ((k / 2 : Nat) : ℤ) := by
  rw [Int.fdiv_eq_ediv _ (by norm_num)]
  omega

/-! ### Claims -/

/-- Claim C4: the orientation classifier returns `landscape` exactly when
width is strictly greater than height, `portrait` exactly when width is
strictly less than height, and `square` exactly when width equals
height. -/
theorem image_orientation_trichotomy (image : Image) :
    (image_orientation image = "landscape" ↔ image.height < image.width) ∧
    (image_orientation image = "portrait" ↔ image.width < image.height) ∧
    (image_orientation image = "square" ↔ image.width = image.height) := by
  unfold image_orientation
  split_ifs with h1 h2 <;>
    refine ⟨⟨fun hs => ?_, fun h => ?_⟩, ⟨fun hs => ?_, fun h => ?_⟩,
            ⟨fun hs => ?_, fun h => ?_⟩⟩ <;>
    first
      | rfl
      | omega
      | (exact absurd hs (by decide))

/-- Claim C6: for in-bounds margins, cropping returns an image of
dimensions exactly (width − left − right, height − top − bottom), whose
content is the corresponding rectangular region of the source. -/
theorem crop_image_spec (current_config : CurrentConfig) (image : Image)
    (hw : current_config.crop.left + current_config.crop.right < image.width)
    (hh : current_config.crop.top + current_config.crop.bottom < image.height) :
    (crop_image current_config image).width =
      image.width - current_config.crop.left - current_config.crop.right ∧
    (crop_image current_config image).height =
      image.height - current_config.crop.top - current_config.crop.bottom ∧
    ∀ x y, x < (crop_image current_config image).width →
      y < (crop_image current_config image).height →
      (crop_image current_config image).pixel x y =
        image.pixel (current_config.crop.left + x) (current_config.crop.top + y) := by
  unfold crop_image pilCrop
  dsimp only
  refine ⟨by omega, by omega, ?_⟩
  intro x y hx hy
  rw [if_pos]
  · congr 1
  · refine ⟨by omega, by omega, by omega, by omega⟩

/-- Claim C6 witness: a 10×8 source with margins (1, 2, 3, 1) crops to
6×5 with content drawn from offset (1, 2). -/
theorem crop_image_spec_witness :
    (crop_image ⟨"L", ⟨1, 2, 3, 1⟩, 1⟩
        ⟨10, 8, fun x y => ⟨x, y, 0, 255⟩, true⟩).width = 6 ∧
    (crop_image ⟨"L", ⟨1, 2, 3, 1⟩, 1⟩
        ⟨10, 8, fun x y => ⟨x, y, 0, 255⟩, true⟩).height = 5 ∧
    (crop_image ⟨"L", ⟨1, 2, 3, 1⟩, 1⟩
        ⟨10, 8, fun x y => ⟨x, y, 0, 255⟩, true⟩).pixel 0 0 = ⟨1, 2, 0, 255⟩ := by
  obtain ⟨h1, h2, h3⟩ :=
    crop_image_spec ⟨"L", ⟨1, 2, 3, 1⟩, 1⟩
      ⟨10, 8, fun x y => ⟨x, y, 0, 255⟩, true⟩ (by decide) (by decide)
  refine ⟨h1, h2, ?_⟩
  rw [h3 0 0 (by rw [h1]; decide) (by rw [h2]; decide)]

/-- The uniform factor computed inside `scale_image`. -/
def scaleRatOf (current_config : CurrentConfig) (image frame : Image) : ℚ :=
  current_config.scaleFactor *
    min ((frame.width : ℚ) / (image.width : ℚ))
        ((frame.height : ℚ) / (image.height : ℚ))

lemma scaleRatOf_nonneg (current_config : CurrentConfig) (image frame : Image)
    (hm : 0 ≤ current_config.scaleFactor) :
    0 ≤ scaleRatOf current_config image frame := by
  unfold scaleRatOf
  apply mul_nonneg hm
  exact le_min (by positivity) (by positivity)

lemma ratTrunc_of_nonneg (q : ℚ) (h : 0 ≤ q) : ratTrunc q = Int.floor q := by
  unfold ratTrunc
  rw [if_neg (by exact not_lt.mpr h)]

/-- With a non-negative configured multiplier, the scaled width is the
floor of width times the uniform factor. -/
lemma scale_image_width_eq (current_config : CurrentConfig) (image frame : Image)
    (hm : 0 ≤ current_config.scaleFactor) :
    ((scale_image current_config image frame).width : ℤ) =
      Int.floor ((image.width : ℚ) * scaleRatOf current_config image frame) := by
  have hf := scaleRatOf_nonneg current_config image frame hm
  have hprod : 0 ≤ (image.width : ℚ) * scaleRatOf current_config image frame :=
    mul_nonneg (by positivity) hf
  unfold scale_image
  dsimp only
  rw [show current_config.scaleFactor *
        min ((frame.width : ℚ) / (image.width : ℚ))
            ((frame.height : ℚ) / (image.height : ℚ)) =
      scaleRatOf current_config image frame from rfl]
  rw [ratTrunc_of_nonneg _ hprod]
  exact Int.toNat_of_nonneg (Int.floor_nonneg.mpr hprod)

/-- With a non-negative configured multiplier, the scaled height is the
floor of height times the uniform factor. -/
lemma scale_image_height_eq (current_config : CurrentConfig) (image frame : Image)
    (hm : 0 ≤ current_config.scaleFactor) :
    ((scale_image current_config image frame).height : ℤ) =
      Int.floor ((image.height : ℚ) * scaleRatOf current_config image frame) := by
  have hf := scaleRatOf_nonneg current_config image frame hm
  have hprod : 0 ≤ (image.height : ℚ) * scaleRatOf current_config image frame :=
    mul_nonneg (by positivity) hf
  unfold scale_image
  dsimp only
  rw [show current_config.scaleFactor *
        min ((frame.width : ℚ) / (image.width : ℚ))
            ((frame.height : ℚ) / (image.height : ℚ)) =
      scaleRatOf current_config image frame from rfl]
  rw [ratTrunc_of_nonneg _ hprod]
  exact Int.toNat_of_nonneg (Int.floor_nonneg.mpr hprod)

/-- Claim C1: for a cropped image of positive dimensions, scaling yields
width `⌊width · f⌋` and height `⌊height · f⌋` where
`f = multiplier · min(frame.width / width, frame.height / height)`; and
with multiplier 1 the result fits inside the frame's bounding box. -/
theorem scale_image_dimensions (current_config : CurrentConfig) (image frame : Image)
    (hw : 0 < image.width) (hh : 0 < image.height)
    (hm : 0 ≤ current_config.scaleFactor) :
    (((scale_image current_config image frame).width : ℤ) =
       Int.floor ((image.width : ℚ) * scaleRatOf current_config image frame) ∧
     ((scale_image current_config image frame).height : ℤ) =
       Int.floor ((image.height : ℚ) * scaleRatOf current_config image frame)) ∧
    (current_config.scaleFactor = 1 →
      (scale_image current_config image frame).width ≤ frame.width ∧
      (scale_image current_config image frame).height ≤ frame.height) := by
  have hW := scale_image_width_eq current_config image frame hm
  have hH := scale_image_height_eq current_config image frame hm
  refine ⟨⟨hW, hH⟩, fun h1 => ?_⟩
  have hw0 : (image.width : ℚ) ≠ 0 := by positivity
  have hh0 : (image.height : ℚ) ≠ 0 := by positivity
  have hfw : (image.width : ℚ) * scaleRatOf current_config image frame ≤
      (frame.width : ℚ) := by
    unfold scaleRatOf
    rw [h1, one_mul]
    calc (image.width : ℚ) *
          min ((frame.width : ℚ) / (image.width : ℚ))
              ((frame.height : ℚ) / (image.height : ℚ)) ≤
        (image.width : ℚ) * ((frame.width : ℚ) / (image.width : ℚ)) :=
          mul_le_mul_of_nonneg_left (min_le_left _ _) (by positivity)
      _ = (frame.width : ℚ) := by
          rw [mul_div_assoc', mul_comm, mul_div_assoc, div_self hw0, mul_one]
  have hfh : (image.height : ℚ) * scaleRatOf current_config image frame ≤
      (frame.height : ℚ) := by
    unfold scaleRatOf
    rw [h1, one_mul]
    calc (image.height : ℚ) *
          min ((frame.width : ℚ) / (image.width : ℚ))
              ((frame.height : ℚ) / (image.height : ℚ)) ≤
        (image.height : ℚ) * ((frame.height : ℚ) / (image.height : ℚ)) :=
          mul_le_mul_of_nonneg_left (min_le_right _ _) (by positivity)
      _ = (frame.height : ℚ) := by
          rw [mul_div_assoc', mul_comm, mul_div_assoc, div_self hh0, mul_one]
  have bw : Int.floor ((image.width : ℚ) * scaleRatOf current_config image frame) ≤
      (frame.width : ℤ) := by
    have := Int.floor_le_floor hfw
    rwa [Int.floor_natCast] at this
  have bh : Int.floor ((image.height : ℚ) * scaleRatOf current_config image frame) ≤
      (frame.height : ℤ) := by
    have := Int.floor_le_floor hfh
    rwa [Int.floor_natCast] at this
  omega

/-- Claim C1 witness: a 3×2 image scaled into a 2×2 frame with
multiplier 1 gets dimensions 2×1, the floors of 3·(2/3) and 2·(2/3),
inside the frame box. -/
theorem scale_image_dimensions_witness :
    (((scale_image ⟨"L", ⟨0, 0, 0, 0⟩, 1⟩ ⟨3, 2, fun _ _ => ⟨0, 0, 0, 0⟩, true⟩
          ⟨2, 2, fun _ _ => ⟨0, 0, 0, 0⟩, true⟩).width : ℤ) =
       Int.floor ((((3 : Nat) : ℚ)) * scaleRatOf ⟨"L", ⟨0, 0, 0, 0⟩, 1⟩
          ⟨3, 2, fun _ _ => ⟨0, 0, 0, 0⟩, true⟩ ⟨2, 2, fun _ _ => ⟨0, 0, 0, 0⟩, true⟩) ∧
     ((scale_image ⟨"L", ⟨0, 0, 0, 0⟩, 1⟩ ⟨3, 2, fun _ _ => ⟨0, 0, 0, 0⟩, true⟩
          ⟨2, 2, fun _ _ => ⟨0, 0, 0, 0⟩, true⟩).height : ℤ) =
       Int.floor ((((2 : Nat) : ℚ)) * scaleRatOf ⟨"L", ⟨0, 0, 0, 0⟩, 1⟩
          ⟨3, 2, fun _ _ => ⟨0, 0, 0, 0⟩, true⟩ ⟨2, 2, fun _ _ => ⟨0, 0, 0, 0⟩, true⟩)) ∧
    ((1 : ℚ) = 1 →
      (scale_image ⟨"L", ⟨0, 0, 0, 0⟩, 1⟩ ⟨3, 2, fun _ _ => ⟨0, 0, 0, 0⟩, true⟩
          ⟨2, 2, fun _ _ => ⟨0, 0, 0, 0⟩, true⟩).width ≤ 2 ∧
      (scale_image ⟨"L", ⟨0, 0, 0, 0⟩, 1⟩ ⟨3, 2, fun _ _ => ⟨0, 0, 0, 0⟩, true⟩
          ⟨2, 2, fun _ _ => ⟨0, 0, 0, 0⟩, true⟩).height ≤ 2) :=
  scale_image_dimensions ⟨"L", ⟨0, 0, 0, 0⟩, 1⟩ ⟨3, 2, fun _ _ => ⟨0, 0, 0, 0⟩, true⟩
    ⟨2, 2, fun _ _ => ⟨0, 0, 0, 0⟩, true⟩ (by decide) (by decide) (by norm_num)

/-- A 3×2 test image. -/
def cImg32 : Image := ⟨3, 2, fun _ _ => ⟨0, 0, 0, 0⟩, true⟩

/-- A 2×2 test frame. -/
def cFrame22 : Image := ⟨2, 2, fun _ _ => ⟨0, 0, 0, 0⟩, true⟩

/-- A test configuration with zero margins and multiplier 1. -/
def cCC : CurrentConfig := ⟨"L", ⟨0, 0, 0, 0⟩, 1⟩

/-- Claim C8 counterexample: scaling the 3×2 image into the 2×2 frame with
multiplier 1 yields a 2×1 image, and 2/1 ≠ 3/2 as exact rationals, so the
output width-to-height ratio does not equal the input ratio exactly. -/
theorem scale_image_ratio_counterexample :
    (scale_image cCC cImg32 cFrame22).width = 2 ∧
    (scale_image cCC cImg32 cFrame22).height = 1 ∧
    ¬ (((scale_image cCC cImg32 cFrame22).width : ℚ) /
         ((scale_image cCC cImg32 cFrame22).height : ℚ) =
       (cImg32.width : ℚ) / (cImg32.height : ℚ)) := by
  have hW : (scale_image cCC cImg32 cFrame22).width = 2 := by
    simp only [scale_image, cCC, cImg32, cFrame22]
    norm_num [ratTrunc, min_def]
    rfl
  have hH : (scale_image cCC cImg32 cFrame22).height = 1 := by
    simp only [scale_image, cCC, cImg32, cFrame22]
    norm_num [ratTrunc, min_def]
  refine ⟨hW, hH, ?_⟩
  rw [hW, hH]
  show ¬ (((2 : Nat) : ℚ) / ((1 : Nat) : ℚ) = ((3 : Nat) : ℚ) / ((2 : Nat) : ℚ))
  norm_num

/-- Claim C8 (amended): both output dimensions come from one uniform
factor — each is the floor of the corresponding input dimension times that
factor — so the output ratio matches the input ratio up to the one-pixel
rounding introduced by the floors (cross-multiplied double inequality). -/
theorem scale_image_uniform_factor (current_config : CurrentConfig)
    (image frame : Image) (hw : 0 < image.width) (hh : 0 < image.height)
    (hm : 0 ≤ current_config.scaleFactor) :
    (((scale_image current_config image frame).width : ℤ) =
       Int.floor ((image.width : ℚ) * scaleRatOf current_config image frame) ∧
     ((scale_image current_config image frame).height : ℤ) =
       Int.floor ((image.height : ℚ) * scaleRatOf current_config image frame)) ∧
    (scale_image current_config image frame).width * image.height <
      ((scale_image current_config image frame).height + 1) * image.width ∧
    (scale_image current_config image frame).height * image.width <
      ((scale_image current_config image frame).width + 1) * image.height := by
  have hW := scale_image_width_eq current_config image frame hm
  have hH := scale_image_height_eq current_config image frame hm
  refine ⟨⟨hW, hH⟩, ?_, ?_⟩
  · have h1 : ((scale_image current_config image frame).width : ℚ) ≤
        (image.width : ℚ) * scaleRatOf current_config image frame := by
      have hle := Int.floor_le ((image.width : ℚ) * scaleRatOf current_config image frame)
      calc ((scale_image current_config image frame).width : ℚ) =
          ((((scale_image current_config image frame).width : ℤ)) : ℚ) := by push_cast; ring
        _ = ((Int.floor ((image.width : ℚ) * scaleRatOf current_config image frame) : ℤ) : ℚ) := by
            rw [hW]
        _ ≤ (image.width : ℚ) * scaleRatOf current_config image frame := hle
    have h2 : (image.height : ℚ) * scaleRatOf current_config image frame <
        ((scale_image current_config image frame).height : ℚ) + 1 := by
      have hlt := Int.lt_floor_add_one ((image.height : ℚ) * scaleRatOf current_config image frame)
      calc (image.height : ℚ) * scaleRatOf current_config image frame <
          ((Int.floor ((image.height : ℚ) * scaleRatOf current_config image frame) : ℤ) : ℚ) + 1 := hlt
        _ = ((scale_image current_config image frame).height : ℚ) + 1 := by rw [← hH]; push_cast; ring
    have key : ((scale_image current_config image frame).width : ℚ) * (image.height : ℚ) <
        (((scale_image current_config image frame).height : ℚ) + 1) * (image.width : ℚ) := by
      calc ((scale_image current_config image frame).width : ℚ) * (image.height : ℚ) ≤
          ((image.width : ℚ) * scaleRatOf current_config image frame) * (image.height : ℚ) :=
            mul_le_mul_of_nonneg_right h1 (by positivity)
        _ = ((image.height : ℚ) * scaleRatOf current_config image frame) * (image.width : ℚ) := by
            ring
        _ < (((scale_image current_config image frame).height : ℚ) + 1) * (image.width : ℚ) :=
            mul_lt_mul_of_pos_right h2 (by positivity)
    exact_mod_cast key
  · have h1 : ((scale_image current_config image frame).height : ℚ) ≤
        (image.height : ℚ) * scaleRatOf current_config image frame := by
      have hle := Int.floor_le ((image.height : ℚ) * scaleRatOf current_config image frame)
      calc ((scale_image current_config image frame).height : ℚ) =
          ((((scale_image current_config image frame).height : ℤ)) : ℚ) := by push_cast; ring
        _ = ((Int.floor ((image.height : ℚ) * scaleRatOf current_config image frame) : ℤ) : ℚ) := by
            rw [hH]
        _ ≤ (image.height : ℚ) * scaleRatOf current_config image frame := hle
    have h2 : (image.width : ℚ) * scaleRatOf current_config image frame <
        ((scale_image current_config image frame).width : ℚ) + 1 := by
      have hlt := Int.lt_floor_add_one ((image.width : ℚ) * scaleRatOf current_config image frame)
      calc (image.width : ℚ) * scaleRatOf current_config image frame <
          ((Int.floor ((image.width : ℚ) * scaleRatOf current_config image frame) : ℤ) : ℚ) + 1 := hlt
        _ = ((scale_image current_config image frame).width : ℚ) + 1 := by rw [← hW]; push_cast; ring
    have key : ((scale_image current_config image frame).height : ℚ) * (image.width : ℚ) <
        (((scale_image current_config image frame).width : ℚ) + 1) * (image.height : ℚ) := by
      calc ((scale_image current_config image frame).height : ℚ) * (image.width : ℚ) ≤
          ((image.height : ℚ) * scaleRatOf current_config image frame) * (image.width : ℚ) :=
            mul_le_mul_of_nonneg_right h1 (by positivity)
        _ = ((image.width : ℚ) * scaleRatOf current_config image frame) * (image.height : ℚ) := by
            ring
        _ < (((scale_image current_config image frame).width : ℚ) + 1) * (image.height : ℚ) :=
            mul_lt_mul_of_pos_right h2 (by positivity)
    exact_mod_cast key

/-- Claim C8 (amended) witness: instantiated at the 3×2 image and 2×2
frame with multiplier 1. -/
theorem scale_image_uniform_factor_witness :
    (((scale_image cCC cImg32 cFrame22).width : ℤ) =
       Int.floor ((cImg32.width : ℚ) * scaleRatOf cCC cImg32 cFrame22) ∧
     ((scale_image cCC cImg32 cFrame22).height : ℤ) =
       Int.floor ((cImg32.height : ℚ) * scaleRatOf cCC cImg32 cFrame22)) ∧
    (scale_image cCC cImg32 cFrame22).width * cImg32.height <
      ((scale_image cCC cImg32 cFrame22).height + 1) * cImg32.width ∧
    (scale_image cCC cImg32 cFrame22).height * cImg32.width <
      ((scale_image cCC cImg32 cFrame22).width + 1) * cImg32.height :=
  scale_image_uniform_factor cCC cImg32 cFrame22 (by decide) (by decide)
    (by show (0 : ℚ) ≤ 1; norm_num)

/-- For an image no larger than the frame, `pad_image` is `expand` with
the floored-half left/top paddings and remainder right/bottom paddings. -/
lemma pad_image_eq (config : Config) (image frame : Image)
    (hw : image.width ≤ frame.width) (hh : image.height ≤ frame.height) :
    pad_image config image frame =
      expand image ((frame.width - image.width) / 2) ((frame.height - image.height) / 2)
        (frame.width - image.width - (frame.width - image.width) / 2)
        (frame.height - image.height - (frame.height - image.height) / 2)
        (if config.debug then fillRed else fillWhite) := by
  unfold pad_image
  have e1 : (frame.width : ℤ) - (image.width : ℤ) =
      ((frame.width - image.width : Nat) : ℤ) := by omega
  have e2 : (frame.height : ℤ) - (image.height : ℤ) =
      ((frame.height - image.height : Nat) : ℤ) := by omega
  rw [e1, e2, fdiv_two_natCast, fdiv_two_natCast]
  simp only [add_zero, Int.toNat_natCast, Int.toNat_sub]

/-- Claim C2: padding a scaled image that fits the frame produces a canvas
of exactly the frame's dimensions; the left/top paddings are the floored
halves of the slack, the right/bottom paddings the exact remainders (so
opposite paddings sum to the slack exactly); the centred region shows the
image and everything outside it is the fully opaque mode-dependent fill,
red in debug mode and white otherwise. -/
theorem pad_image_spec (config : Config) (image frame : Image)
    (hw : image.width ≤ frame.width) (hh : image.height ≤ frame.height) :
    (pad_image config image frame).width = frame.width ∧
    (pad_image config image frame).height = frame.height ∧
    (frame.width - image.width) / 2 +
      (frame.width - image.width - (frame.width - image.width) / 2) =
      frame.width - image.width ∧
    (frame.height - image.height) / 2 +
      (frame.height - image.height - (frame.height - image.height) / 2) =
      frame.height - image.height ∧
    (∀ x y, (frame.width - image.width) / 2 ≤ x →
      x < (frame.width - image.width) / 2 + image.width →
      (frame.height - image.height) / 2 ≤ y →
      y < (frame.height - image.height) / 2 + image.height →
      (pad_image config image frame).pixel x y =
        image.pixel (x - (frame.width - image.width) / 2)
          (y - (frame.height - image.height) / 2)) ∧
    (∀ x y,
      (x < (frame.width - image.width) / 2 ∨
       (frame.width - image.width) / 2 + image.width ≤ x ∨
       y < (frame.height - image.height) / 2 ∨
       (frame.height - image.height) / 2 + image.height ≤ y) →
      (pad_image config image frame).pixel x y =
        (if config.debug then fillRed else fillWhite) ∧
      ((pad_image config image frame).pixel x y).a = 255) := by
  rw [pad_image_eq config image frame hw hh]
  unfold expand
  dsimp only
  refine ⟨by omega, by omega, by omega, by omega, ?_, ?_⟩
  · intro x y h1 h2 h3 h4
    rw [if_pos]
    exact ⟨h1, h2, h3, h4⟩
  · intro x y hout
    rw [if_neg]
    · refine ⟨rfl, ?_⟩
      cases config.debug <;> rfl
    · intro hc
      rcases hc with ⟨c1, c2, c3, c4⟩
      omega

/-- Claim C2 witness: a 2×1 image padded into a 4×3 frame, in debug mode:
canvas 4×3, left padding 1, top padding 1, centre pixel from the image,
corner pixel opaque red. -/
theorem pad_image_spec_witness :
    (pad_image ⟨"in", "out", true⟩ ⟨2, 1, fun x y => ⟨x, y, 7, 9⟩, true⟩
        ⟨4, 3, fun _ _ => ⟨0, 0, 0, 0⟩, true⟩).width = 4 ∧
    (pad_image ⟨"in", "out", true⟩ ⟨2, 1, fun x y => ⟨x, y, 7, 9⟩, true⟩
        ⟨4, 3, fun _ _ => ⟨0, 0, 0, 0⟩, true⟩).height = 3 ∧
    (pad_image ⟨"in", "out", true⟩ ⟨2, 1, fun x y => ⟨x, y, 7, 9⟩, true⟩
        ⟨4, 3, fun _ _ => ⟨0, 0, 0, 0⟩, true⟩).pixel 1 1 = ⟨0, 0, 7, 9⟩ ∧
    (pad_image ⟨"in", "out", true⟩ ⟨2, 1, fun x y => ⟨x, y, 7, 9⟩, true⟩
        ⟨4, 3, fun _ _ => ⟨0, 0, 0, 0⟩, true⟩).pixel 0 0 = fillRed := by
  obtain ⟨h1, h2, _, _, hin, hout⟩ :=
    pad_image_spec ⟨"in", "out", true⟩ ⟨2, 1, fun x y => ⟨x, y, 7, 9⟩, true⟩
      ⟨4, 3, fun _ _ => ⟨0, 0, 0, 0⟩, true⟩ (by decide) (by decide)
  refine ⟨h1, h2, ?_, ?_⟩
  · rw [hin 1 1 (by decide) (by decide) (by decide) (by decide)]
    decide
  · rw [(hout 0 0 (by decide)).1]
    rfl

set_option maxRecDepth 4000 in
/-- `MULDIV255` at full weight is the identity on 8-bit values. -/
lemma muldiv255_full : ∀ c < 256, muldiv255 c 255 = c := by decide

/-- `MULDIV255` at zero weight vanishes. -/
lemma muldiv255_zero (c : Nat) : muldiv255 c 0 = 0 := by
  simp [muldiv255]

/-- Blending under a fully transparent mask keeps the base channel. -/
lemma blendChannel_zero (c o : Nat) (hc : c ≤ 255) : blendChannel c o 0 = c := by
  unfold blendChannel
  rw [Nat.sub_zero, muldiv255_zero, muldiv255_full c (by omega), Nat.add_zero]

/-- Blending under a fully opaque mask takes the overlay channel. -/
lemma blendChannel_full (c o : Nat) (ho : o ≤ 255) : blendChannel c o 255 = o := by
  unfold blendChannel
  rw [Nat.sub_self, muldiv255_zero, muldiv255_full o (by omega), Nat.zero_add]

/-- Pixel blend under a fully transparent mask keeps the base pixel. -/
lemma blendRGBA_zero (base overlay : RGBA) (hb : base.Valid) :
    blendRGBA base overlay 0 = base := by
  obtain ⟨h1, h2, h3, h4⟩ := hb
  cases base with
  | mk r g b a =>
    unfold blendRGBA
    simp only [RGBA.mk.injEq]
    exact ⟨blendChannel_zero _ _ h1, blendChannel_zero _ _ h2,
      blendChannel_zero _ _ h3, blendChannel_zero _ _ h4⟩

/-- Pixel blend under a fully opaque mask takes the overlay pixel. -/
lemma blendRGBA_full (base overlay : RGBA) (ho : overlay.Valid) :
    blendRGBA base overlay 255 = overlay := by
  obtain ⟨h1, h2, h3, h4⟩ := ho
  cases overlay with
  | mk r g b a =>
    unfold blendRGBA
    simp only [RGBA.mk.injEq]
    exact ⟨blendChannel_full _ _ h1, blendChannel_full _ _ h2,
      blendChannel_full _ _ h3, blendChannel_full _ _ h4⟩

/-- Claim C3: compositing a frame onto a same-sized canvas yields a
flattened image with no alpha channel, every pixel fully opaque; where the
frame is fully transparent the canvas pixel shows through, and where the
frame is fully opaque the frame pixel wins. -/
theorem frame_image_spec (image frame : Image)
    (hw : image.width = frame.width) (hh : image.height = frame.height)
    (hi : image.Valid) (hf : frame.Valid) :
    (frame_image image frame).alphaChannel = false ∧
    (frame_image image frame).width = image.width ∧
    (frame_image image frame).height = image.height ∧
    (∀ x y, ((frame_image image frame).pixel x y).a = 255) ∧
    (∀ x y, x < image.width → y < image.height →
      ((frame.pixel x y).a = 0 →
        (frame_image image frame).pixel x y =
          ⟨(image.pixel x y).r, (image.pixel x y).g, (image.pixel x y).b, 255⟩) ∧
      ((frame.pixel x y).a = 255 →
        (frame_image image frame).pixel x y =
          ⟨(frame.pixel x y).r, (frame.pixel x y).g, (frame.pixel x y).b, 255⟩)) := by
  have hx0 : Int.fdiv ((frame.width : ℤ) - (image.width : ℤ)) 2 = 0 := by
    rw [hw, sub_self]
    rfl
  have hy0 : Int.fdiv ((frame.height : ℤ) - (image.height : ℤ)) 2 = 0 := by
    rw [hh, sub_self]
    rfl
  unfold frame_image
  rw [hx0, hy0]
  unfold convertRGB paste
  dsimp only
  refine ⟨rfl, rfl, rfl, fun x y => rfl, ?_⟩
  intro x y hxlt hylt
  have hcond : (0 : ℤ) ≤ (x : ℤ) - 0 ∧ (x : ℤ) - 0 < (frame.width : ℤ) ∧
      (0 : ℤ) ≤ (y : ℤ) - 0 ∧ (y : ℤ) - 0 < (frame.height : ℤ) ∧
      x < image.width ∧ y < image.height := by
    refine ⟨by omega, by omega, by omega, by omega, hxlt, hylt⟩
  rw [if_pos hcond]
  have hex : ((x : ℤ) - 0).toNat = x := by omega
  have hey : ((y : ℤ) - 0).toNat = y := by omega
  rw [hex, hey]
  constructor
  · intro ha
    rw [ha, blendRGBA_zero (image.pixel x y) (frame.pixel x y) (hi x y)]
  · intro ha
    rw [ha, blendRGBA_full (image.pixel x y) (frame.pixel x y) (hf x y)]

/-- Claim C3 witness: a 2×1 canvas and frame; the frame pixel at x = 0 is
fully transparent green, at x = 1 fully opaque blue; the composite shows
the canvas pixel at x = 0 and the frame pixel at x = 1, flattened and
opaque. -/
theorem frame_image_spec_witness :
    (frame_image ⟨2, 1, fun _ _ => ⟨10, 20, 30, 40⟩, true⟩
        ⟨2, 1, fun x _ => if x = 0 then ⟨0, 255, 0, 0⟩ else ⟨0, 0, 255, 255⟩, true⟩).alphaChannel
        = false ∧
    (frame_image ⟨2, 1, fun _ _ => ⟨10, 20, 30, 40⟩, true⟩
        ⟨2, 1, fun x _ => if x = 0 then ⟨0, 255, 0, 0⟩ else ⟨0, 0, 255, 255⟩, true⟩).pixel 0 0
        = ⟨10, 20, 30, 255⟩ ∧
    (frame_image ⟨2, 1, fun _ _ => ⟨10, 20, 30, 40⟩, true⟩
        ⟨2, 1, fun x _ => if x = 0 then ⟨0, 255, 0, 0⟩ else ⟨0, 0, 255, 255⟩, true⟩).pixel 1 0
        = ⟨0, 0, 255, 255⟩ := by
  obtain ⟨hflag, _, _, _, hpix⟩ :=
    frame_image_spec ⟨2, 1, fun _ _ => ⟨10, 20, 30, 40⟩, true⟩
      ⟨2, 1, fun x _ => if x = 0 then ⟨0, 255, 0, 0⟩ else ⟨0, 0, 255, 255⟩, true⟩
      rfl rfl
      (by intro x y; refine ⟨?_, ?_, ?_, ?_⟩ <;> norm_num)
      (by intro x y; by_cases hx : x = 0 <;> simp [RGBA.Valid, hx])
  refine ⟨hflag, ?_, ?_⟩
  · rw [(hpix 0 0 (by decide) (by decide)).1 (by decide)]
  · rw [(hpix 1 0 (by decide) (by decide)).2 (by decide)]
    decide

/-! ### Derived descriptions of the per-file pipeline

The following abbreviations name the successive intermediate images of
`process_file` for a given resolved configuration; the lemma
`process_file_eq` proves that `process_file` produces exactly these. -/

/-- The frame image loaded for the resolved configuration. -/
def pipeline_frame (loadFrame : String → Image) (current_config : CurrentConfig) : Image :=
  convertRGBA (loadFrame current_config.framePath)

/-- The cropped intermediate of the pipeline. -/
def pipeline_cropped (current_config : CurrentConfig) (img : Image) : Image :=
  crop_image current_config (convertRGBA img)

/-- The scaled intermediate of the pipeline. -/
def pipeline_scaled (loadFrame : String → Image) (current_config : CurrentConfig)
    (img : Image) : Image :=
  scale_image current_config (pipeline_cropped current_config img)
    (pipeline_frame loadFrame current_config)

/-- The padded intermediate of the pipeline. -/
def pipeline_padded (config : Config) (loadFrame : String → Image)
    (current_config : CurrentConfig) (img : Image) : Image :=
  pad_image config (pipeline_scaled loadFrame current_config img)
    (pipeline_frame loadFrame current_config)

/-- The composited (framed) image of the pipeline. -/
def pipeline_framed (config : Config) (loadFrame : String → Image)
    (current_config : CurrentConfig) (img : Image) : Image :=
  frame_image (pipeline_padded config loadFrame current_config img)
    (pipeline_frame loadFrame current_config)

/-- Whether the final composite gets rotated: the global flag is set and
the source image is portrait (the Boolean conjunction evaluated by the
Python condition). -/
def rotateCondition (json_config : JsonConfig) (img : Image) : Bool :=
  json_config.rotateToLandscape && (image_orientation (convertRGBA img) == "portrait")

/-- The image handed to the final save: rotated when the rotate condition
holds, the composite unchanged otherwise. -/
def pipeline_final (json_config : JsonConfig) (config : Config)
    (loadFrame : String → Image) (current_config : CurrentConfig) (img : Image) : Image :=
  if rotateCondition json_config img
  then rotate_image (pipeline_framed config loadFrame current_config img)
  else pipeline_framed config loadFrame current_config img

set_option maxRecDepth 10000 in
/-- On an image whose configuration resolves, the per-file body writes the
four debug snapshots (in debug mode) followed by the final image with the
mode-dependent suffix. -/
lemma process_file_eq (json_config : JsonConfig) (config : Config)
    (loadFrame : String → Image) (filename : String) (img : Image)
    (current_config : CurrentConfig)
    (hcc : set_current_config json_config (convertRGBA img) = Except.ok current_config) :
    process_file json_config config loadFrame filename img =
      Except.ok
        ((if config.debug then
            [save_image config (convertRGBA img) filename "_0_original",
             save_image config (pipeline_cropped current_config img) filename "_1_cropped",
             save_image config (pipeline_scaled loadFrame current_config img) filename
               "_2_scaled",
             save_image config (pipeline_padded config loadFrame current_config img) filename
               "_3_padded"]
          else []) ++
         [save_image config (pipeline_final json_config config loadFrame current_config img)
            filename (if config.debug then "_4_framed" else "_framed")]) := by
  unfold process_file pipeline_final pipeline_framed pipeline_padded pipeline_scaled
    pipeline_cropped pipeline_frame rotateCondition
  dsimp only
  rw [hcc]
  cases hdbg : config.debug
  · simp
  · simp
    exact ⟨rfl, rfl, rfl, rfl, rfl⟩

/-- A square test image. -/
def cImgSq : Image := ⟨2, 2, fun _ _ => ⟨0, 0, 0, 0⟩, true⟩

/-- A portrait test image. -/
def cImg23 : Image := ⟨2, 3, fun _ _ => ⟨0, 0, 0, 0⟩, true⟩

/-- A landscape test image. -/
def cImg43 : Image := ⟨4, 3, fun _ _ => ⟨0, 0, 0, 0⟩, true⟩

/-- A concrete JSON configuration with the rotate flag set. -/
def cJson : JsonConfig := ⟨"LF", ⟨0, 0, 0, 0⟩, 1, "PF", ⟨0, 0, 0, 0⟩, 1, true⟩

/-- A concrete non-debug run configuration. -/
def cConfig : Config := ⟨"in", "out", false⟩

/-- A concrete debug run configuration. -/
def cConfigDebug : Config := ⟨"in", "out", true⟩

/-- A concrete frame loader. -/
def cLoad : String → Image := fun _ => cFrame22

/-- The portrait parameter set that `cJson` resolves to. -/
def cPortCC : CurrentConfig := ⟨"PF", ⟨0, 0, 0, 0⟩, 1⟩

/-- The landscape parameter set that `cJson` resolves to. -/
def cLandCC : CurrentConfig := ⟨"LF", ⟨0, 0, 0, 0⟩, 1⟩

/-- On a square image, configuration selection takes the error branch that
models `exit(1)`. -/
lemma set_current_config_square (json_config : JsonConfig) (image : Image)
    (hsq : image.width = image.height) :
    set_current_config json_config image = Except.error 1 := by
  have ho : image_orientation image = "square" := by
    unfold image_orientation
    rw [if_neg (by omega), if_neg (by omega)]
  unfold set_current_config
  rw [ho, if_neg (by decide), if_neg (by decide)]

/-- Processing a square image aborts with exit code 1. -/
lemma process_file_square (json_config : JsonConfig) (config : Config)
    (loadFrame : String → Image) (filename : String) (img : Image)
    (hsq : img.width = img.height) :
    process_file json_config config loadFrame filename img = Except.error 1 := by
  unfold process_file
  dsimp only
  rw [set_current_config_square json_config (convertRGBA img) hsq]

/-- Claim C5: if any `.jpg` entry of the listing decodes to a square
image, the whole run stops with exit code 1: whatever files come after the
square one are never processed and no output list is produced. -/
theorem square_image_aborts_batch (json_config : JsonConfig) (config : Config)
    (loadFrame : String → Image) (pre : List (String × Image)) (name : String)
    (img : Image) (rest : List (String × Image)) (acc : List (String × Image))
    (hpre : process json_config config loadFrame pre = Except.ok acc)
    (hjpg : endsWithStr name ".jpg" = true)
    (hsq : img.width = img.height) :
    process json_config config loadFrame (pre ++ (name, img) :: rest) =
      Except.error 1 := by
  induction pre generalizing acc with
  | nil =>
    rw [List.nil_append]
    simp [process, hjpg,
      process_file_square json_config config loadFrame name img hsq]
  | cons p pre ih =>
    obtain ⟨pname, pimg⟩ := p
    rw [List.cons_append]
    by_cases hp : endsWithStr pname ".jpg" = true
    · simp only [process, hp, if_true] at hpre ⊢
      cases hpf : process_file json_config config loadFrame pname pimg with
      | error e =>
        exfalso
        rw [hpf] at hpre
        dsimp only at hpre
        exact Except.noConfusion hpre
      | ok s =>
        rw [hpf] at hpre
        dsimp only at hpre ⊢
        cases hrec : process json_config config loadFrame pre with
        | error e =>
          exfalso
          rw [hrec] at hpre
          dsimp only at hpre
          exact Except.noConfusion hpre
        | ok more =>
          rw [ih more hrec]
    · simp only [process, hp, if_false] at hpre ⊢
      exact ih acc hpre

/-- Claim C5 witness: a listing whose only entry is a square `.jpg` image
makes the run abort with exit code 1. -/
theorem square_image_aborts_batch_witness :
    process cJson cConfig cLoad ([] ++ ("sq.jpg", cImgSq) :: []) = Except.error 1 :=
  square_image_aborts_batch cJson cConfig cLoad [] "sq.jpg" cImgSq [] []
    rfl (by decide) rfl

/-- Claim C7: the image placed in the final save is the 90°-rotated
composite — dimensions swapped and every composite pixel present, nothing
cropped — exactly when the source was portrait and the global
rotate-to-landscape flag is set; otherwise it is the composite unchanged. -/
theorem rotate_exactly_on_portrait_flag (json_config : JsonConfig) (config : Config)
    (loadFrame : String → Image) (filename : String) (img : Image)
    (current_config : CurrentConfig)
    (hcc : set_current_config json_config (convertRGBA img) = Except.ok current_config) :
    (∃ saves, process_file json_config config loadFrame filename img = Except.ok saves ∧
      saves.getLast? = some (save_image config
        (pipeline_final json_config config loadFrame current_config img) filename
        (if config.debug then "_4_framed" else "_framed"))) ∧
    ((json_config.rotateToLandscape = true ∧
        image_orientation (convertRGBA img) = "portrait") →
      pipeline_final json_config config loadFrame current_config img =
        rotate_image (pipeline_framed config loadFrame current_config img) ∧
      (pipeline_final json_config config loadFrame current_config img).width =
        (pipeline_framed config loadFrame current_config img).height ∧
      (pipeline_final json_config config loadFrame current_config img).height =
        (pipeline_framed config loadFrame current_config img).width ∧
      ∀ x y, x < (pipeline_framed config loadFrame current_config img).width →
        (pipeline_final json_config config loadFrame current_config img).pixel y
            ((pipeline_framed config loadFrame current_config img).width - 1 - x) =
          (pipeline_framed config loadFrame current_config img).pixel x y) ∧
    (¬(json_config.rotateToLandscape = true ∧
        image_orientation (convertRGBA img) = "portrait") →
      pipeline_final json_config config loadFrame current_config img =
        pipeline_framed config loadFrame current_config img) := by
  refine ⟨?_, ?_, ?_⟩
  · refine ⟨_, process_file_eq json_config config loadFrame filename img current_config hcc, ?_⟩
    rw [List.getLast?_concat]
  · rintro ⟨h1, h2⟩
    have hb : rotateCondition json_config img = true := by
      unfold rotateCondition
      rw [h1, h2]
      rfl
    have hfin : pipeline_final json_config config loadFrame current_config img =
        rotate_image (pipeline_framed config loadFrame current_config img) := by
      unfold pipeline_final
      rw [hb]
      rfl
    refine ⟨hfin, by rw [hfin]; rfl, by rw [hfin]; rfl, ?_⟩
    intro x y hx
    rw [hfin]
    unfold rotate_image
    dsimp only
    have e : (pipeline_framed config loadFrame current_config img).width - 1 -
        ((pipeline_framed config loadFrame current_config img).width - 1 - x) = x := by
      omega
    rw [e]
  · intro hn
    have hb : rotateCondition json_config img = false := by
      unfold rotateCondition
      rcases Bool.eq_false_or_eq_true json_config.rotateToLandscape with ht | hf
      · rw [ht, Bool.true_and]
        rcases Bool.eq_false_or_eq_true
            (image_orientation (convertRGBA img) == "portrait") with hs | hs
        · exfalso
          exact hn ⟨ht, by exact eq_of_beq hs⟩
        · exact hs
      · rw [hf]
        rfl
    unfold pipeline_final
    rw [hb]
    rfl

/-- Claim C7 witness: a portrait 2×3 source with the rotate flag set; the
final image is the rotated composite with swapped dimensions, and the
final save carries the `_framed` suffix. -/
theorem rotate_exactly_on_portrait_flag_witness :
    (∃ saves, process_file cJson cConfig cLoad "photo.jpg" cImg23 = Except.ok saves ∧
      saves.getLast? = some (save_image cConfig
        (pipeline_final cJson cConfig cLoad cPortCC cImg23) "photo.jpg"
        (if cConfig.debug then "_4_framed" else "_framed"))) ∧
    ((cJson.rotateToLandscape = true ∧
        image_orientation (convertRGBA cImg23) = "portrait") →
      pipeline_final cJson cConfig cLoad cPortCC cImg23 =
        rotate_image (pipeline_framed cConfig cLoad cPortCC cImg23) ∧
      (pipeline_final cJson cConfig cLoad cPortCC cImg23).width =
        (pipeline_framed cConfig cLoad cPortCC cImg23).height ∧
      (pipeline_final cJson cConfig cLoad cPortCC cImg23).height =
        (pipeline_framed cConfig cLoad cPortCC cImg23).width ∧
      ∀ x y, x < (pipeline_framed cConfig cLoad cPortCC cImg23).width →
        (pipeline_final cJson cConfig cLoad cPortCC cImg23).pixel y
            ((pipeline_framed cConfig cLoad cPortCC cImg23).width - 1 - x) =
          (pipeline_framed cConfig cLoad cPortCC cImg23).pixel x y) ∧
    (¬(cJson.rotateToLandscape = true ∧
        image_orientation (convertRGBA cImg23) = "portrait") →
      pipeline_final cJson cConfig cLoad cPortCC cImg23 =
        pipeline_framed cConfig cLoad cPortCC cImg23) :=
  rotate_exactly_on_portrait_flag cJson cConfig cLoad "photo.jpg" cImg23 cPortCC rfl

/-- Claim C9 counterexample: in debug mode the final framed file of
`photo.jpg` is saved as `out/photo_4_framed.jpg` — the snapshot counter
ordinal 4 sits between the original stem and `_framed` — not as the
claimed `out/photo_framed.jpg`. -/
theorem framed_filename_counterexample :
    (process_file cJson cConfigDebug cLoad "photo.jpg" cImg43).map
        (fun saves => saves.map Prod.fst) =
      Except.ok ["out/photo_0_original.jpg", "out/photo_1_cropped.jpg",
        "out/photo_2_scaled.jpg", "out/photo_3_padded.jpg",
        "out/photo_4_framed.jpg"] ∧
    "out/photo_4_framed.jpg" ≠ "out/photo_framed.jpg" := by
  constructor
  · rfl
  · decide

/-- Claim C9 (amended): the final framed image is saved in the output
directory under the original stem with the original extension restored;
in a non-debug run the inserted suffix is exactly `_framed`, while in a
debug run the snapshot counter ordinal 4 is interposed, giving
`_4_framed` — in both modes `_framed` immediately precedes the original
extension. -/
theorem framed_filename_spec (json_config : JsonConfig) (config : Config)
    (loadFrame : String → Image) (filename : String) (img : Image)
    (current_config : CurrentConfig)
    (hcc : set_current_config json_config (convertRGBA img) = Except.ok current_config) :
    ∃ saves, process_file json_config config loadFrame filename img = Except.ok saves ∧
      saves.getLast?.map Prod.fst =
        some (joinPath config.output ((splitext filename).1 ++
          (if config.debug then "_4_framed" else "_framed") ++ (splitext filename).2)) := by
  refine ⟨_, process_file_eq json_config config loadFrame filename img current_config hcc, ?_⟩
  rw [List.getLast?_concat]
  rfl

/-- Claim C9 (amended) witness: instantiated in non-debug mode on
`photo.jpg`, giving `out/photo_framed.jpg`. -/
theorem framed_filename_spec_witness :
    ∃ saves, process_file cJson cConfig cLoad "photo.jpg" cImg43 = Except.ok saves ∧
      saves.getLast?.map Prod.fst =
        some (joinPath cConfig.output ((splitext "photo.jpg").1 ++
          (if cConfig.debug then "_4_framed" else "_framed") ++
          (splitext "photo.jpg").2)) :=
  framed_filename_spec cJson cConfig cLoad "photo.jpg" cImg43 cLandCC rfl

/-- Claim C10: every file the pipeline persists — the debug snapshots and
the final framed image — is converted to RGB first: its saved image has no
alpha channel and every pixel fully opaque, even though the in-memory
intermediates (decoded original, cropped, scaled, padded) all carry an
RGBA alpha channel. -/
theorem saved_images_are_rgb (json_config : JsonConfig) (config : Config)
    (loadFrame : String → Image) (filename : String) (img : Image)
    (current_config : CurrentConfig)
    (hcc : set_current_config json_config (convertRGBA img) = Except.ok current_config) :
    (∃ saves, process_file json_config config loadFrame filename img = Except.ok saves ∧
      saves ≠ [] ∧
      ∀ s ∈ saves, s.2.alphaChannel = false ∧ ∀ x y, (s.2.pixel x y).a = 255) ∧
    (convertRGBA img).alphaChannel = true ∧
    (pipeline_cropped current_config img).alphaChannel = true ∧
    (pipeline_scaled loadFrame current_config img).alphaChannel = true ∧
    (pipeline_padded config loadFrame current_config img).alphaChannel = true := by
  refine ⟨⟨_, process_file_eq json_config config loadFrame filename img current_config hcc,
    ?_, ?_⟩, rfl, rfl, rfl, rfl⟩
  · cases hdbg : config.debug <;> simp
  · intro s hs
    rcases List.mem_append.mp hs with hmem | hmem
    · cases hdbg : config.debug
      · rw [hdbg] at hmem
        simp at hmem
      · rw [hdbg] at hmem
        simp only [if_true, List.mem_cons, List.not_mem_nil, or_false] at hmem
        rcases hmem with rfl | rfl | rfl | rfl
        · exact ⟨rfl, fun x y => rfl⟩
        · exact ⟨rfl, fun x y => rfl⟩
        · exact ⟨rfl, fun x y => rfl⟩
        · exact ⟨rfl, fun x y => rfl⟩
    · simp only [List.mem_cons, List.not_mem_nil, or_false] at hmem
      subst hmem
      exact ⟨rfl, fun x y => rfl⟩

/-- Claim C10 witness: instantiated in debug mode on a landscape image:
all five saved files are flattened RGB with fully opaque pixels and the
in-memory intermediates keep their alpha channel. -/
theorem saved_images_are_rgb_witness :
    (∃ saves, process_file cJson cConfigDebug cLoad "photo.jpg" cImg43 = Except.ok saves ∧
      saves ≠ [] ∧
      ∀ s ∈ saves, s.2.alphaChannel = false ∧ ∀ x y, (s.2.pixel x y).a = 255) ∧
    (convertRGBA cImg43).alphaChannel = true ∧
    (pipeline_cropped cLandCC cImg43).alphaChannel = true ∧
    (pipeline_scaled cLoad cLandCC cImg43).alphaChannel = true ∧
    (pipeline_padded cConfigDebug cLoad cLandCC cImg43).alphaChannel = true :=
  saved_images_are_rgb cJson cConfigDebug cLoad "photo.jpg" cImg43 cLandCC rfl

end MagnetFramer
